import Mathlib

/-!
Shallow embedding of `libcloud/loadbalancer/drivers/elb.py` (the Amazon
Elastic Load Balancing driver) and proofs of the specification claims
about it.

Modelling conventions:
* Python dicts used as request parameter maps become insertion-ordered
  association lists (`Params`); `params[k] = v` becomes `pset`.
* The signed transport is out of scope: every driver method takes the
  provider `Response` (parsed XML `object` plus HTTP `status`) as an
  argument and returns the list of requests it issued alongside its
  result, so "no network call" is the empty request list.
* Python runtime faults (`IndexError` from unguarded indexing) and the
  error classes the spec prescribes (`NotFound`, `InvalidArgument`)
  are the constructors of `PyError`; fallible methods return `Except`.
* `%` string interpolation of a decimal index becomes `Nat.repr`.
-/

namespace ELB

/-- A dynamically typed Python value as it occurs in this driver: an int,
a str, or `None`.  Used for fields (such as a balancer's `port`) that the
source populates sometimes with an int and sometimes with `findtext`
output (a string or `None`). -/
inductive PyVal where
  | int (n : Int)
  | str (s : String)
  | none
deriving DecidableEq, Repr

/-- Convert a `findtext` result (string or `None`) to a `PyVal`. -/
def optV : Option String → PyVal
  | some s => PyVal.str s
  | Option.none => PyVal.none

/-- Error classes relevant to the claims.  The driver code itself only
ever produces `indexError` (Python `IndexError` from an unguarded `[i]`);
`notFound` and `invalidArgument` model the NotFound-class and
InvalidArgument-class errors the specification prescribes, so that the
claims about them can be stated. -/
inductive PyError where
  | indexError
  | notFound
  | invalidArgument
deriving DecidableEq, Repr

/-- Modelled from the spec: the vendor-neutral `State` enumeration from
`libcloud.loadbalancer.types` (not under `src/`), "with at least
{PENDING, ACTIVE, UNKNOWN}". -/
inductive State where
  | pending
  | active
  | unknown
deriving DecidableEq, Repr

/-- Records which object the source passed as the `balancer=` keyword
argument of the `Member` constructor: `driverSelf` when it passed the
driver object (`self`), `owningBalancer id` when it passed the
`LoadBalancer` object whose `id` field is `id` (the Python object is
cyclic, so the owner is recorded by its identity). -/
inductive OwnerRef where
  | driverSelf
  | owningBalancer (id : PyVal)
deriving DecidableEq, Repr

/-- Modelled from the spec: the vendor-neutral `Member` object from
`libcloud.loadbalancer.base` (not under `src/`): identity `id`, optional
`ip`/`port`, and the `balancer` back-reference. -/
structure Member where
  id : String
  ip : PyVal
  port : PyVal
  balancer : OwnerRef
deriving DecidableEq, Repr

/-- Modelled from the spec: the vendor-neutral `LoadBalancer` object from
`libcloud.loadbalancer.base` (not under `src/`): identity `id`/`name`,
`state`, `ip`, `port`, plus the transient `_members` list the driver
attaches (field `members` here). -/
structure LoadBalancer where
  id : PyVal
  name : PyVal
  state : State
  ip : PyVal
  port : PyVal
  members : List Member
deriving DecidableEq, Repr

/-- A compute node as consumed by `balancer_attach_compute_node`: only
its `id` is used by this driver. -/
structure Node where
  id : String
deriving DecidableEq, Repr

/-- An XML element: tag, text content, children. -/
inductive XmlElem where
  | node (tag : String) (text : String) (children : List XmlElem)

def XmlElem.tag : XmlElem → String
  | .node t _ _ => t

def XmlElem.text : XmlElem → String
  | .node _ s _ => s

def XmlElem.children : XmlElem → List XmlElem
  | .node _ _ c => c

/-- Modelled from the spec: `libcloud.utils.xml.findall(element, xpath,
namespace)` (not under `src/`) — "find_all(element, path, namespace) ->
sequence of element".  The xpath is a fixed slash-separated structural
path, given here as the list of its tag segments; each segment descends
into matching direct children, in document order.  The namespace
argument is absorbed into the tags. -/
def findall : List String → XmlElem → List XmlElem
  | [], el => [el]
  | t :: rest, el => (el.children.filter (fun c => c.tag == t)).flatMap (findall rest)

/-- Modelled from the spec: `libcloud.utils.xml.findtext(element, xpath,
namespace)` (not under `src/`) — "find_text(element, path, namespace) ->
string|None": the text of the first element matching the path, or `None`
when no element matches. -/
def findtext (xpath : List String) (el : XmlElem) : Option String :=
  (findall xpath el).head?.map XmlElem.text

/-- Python `str.upper()` for the ASCII strings this driver handles,
written as a character map so that it evaluates by reduction (byte-level
equal to `String.toUpper` on ASCII input). -/
def pyUpper (s : String) : String := String.mk (s.data.map Char.toUpper)

/-- A request parameter map: a Python dict with string keys, in insertion
order. -/
abbrev Params := List (String × PyVal)

/-- Python dict assignment `params[k] = v`: update in place when the key
is present (keeping its position), append otherwise. -/
def pset (p : Params) (k : String) (v : PyVal) : Params :=
  if p.any (fun kv => kv.1 == k) then
    p.map (fun kv => if kv.1 == k then (k, v) else kv)
  else p ++ [(k, v)]

/-- Whether a parameter map contains the key `k`. -/
def hasKey (p : Params) (k : String) : Bool :=
  p.any (fun kv => kv.1 == k)

/-- `VERSION = '2012-06-01'`. -/
def VERSION : String := "2012-06-01"

/-- `ROOT = '/%s/' % (VERSION)`. -/
def ROOT : String := "/" ++ VERSION ++ "/"

/-- One call to `self.connection.request(path, params)`. -/
structure Request where
  path : String
  params : Params
deriving DecidableEq, Repr

/-- The transport's response: a parsed XML document (`.object`) and an
HTTP status code (`.status`). -/
structure Response where
  object : XmlElem
  status : Nat

/-- `httplib.OK`. -/
def httplib_OK : Nat := 200

namespace ElasticLBDriver

/-- `list_protocols`. -/
def list_protocols : List String := ["tcp", "ssl", "http", "https"]

/-- `_to_balancer(self, el)`: parse one balancer XML fragment.  The
members are built with `balancer=balancer`, i.e. the `LoadBalancer`
being constructed, recorded as `OwnerRef.owningBalancer` of its id. -/
def _to_balancer (el : XmlElem) : LoadBalancer :=
  let name := findtext ["LoadBalancerName"] el
  let dns_name := findtext ["DNSName"] el
  let port := findtext ["LoadBalancerPort"] el
  let members := findall ["Instances", "member", "InstanceId"] el
  { id := optV name
    name := optV name
    state := State.unknown
    ip := optV dns_name
    port := optV port
    members := members.map (fun m =>
      { id := m.text, ip := PyVal.none, port := PyVal.none
        balancer := OwnerRef.owningBalancer (optV name) }) }

/-- `_to_balancers(self, data)`. -/
def _to_balancers (data : XmlElem) : List LoadBalancer :=
  (findall ["DescribeLoadBalancersResult", "LoadBalancerDescriptions", "member"] data).map
    _to_balancer

/-- `list_balancers(self)`. -/
def list_balancers (resp : Response) : List Request × List LoadBalancer :=
  ([⟨ROOT, [("Action", PyVal.str "DescribeLoadBalancers")]⟩], _to_balancers resp.object)

/-- `create_balancer(self, name, port, protocol, algorithm, members,
ex_members_availability_zones=None)`.  `algorithm` and `members` are
accepted at arbitrary types and, as in the source, never used. -/
def create_balancer {A B : Type} (region name : String) (port : Int) (protocol : String)
    (algorithm : A) (members : B) (ex_members_availability_zones : Option (List String))
    (resp : Response) : List Request × LoadBalancer :=
  let zones := ex_members_availability_zones.getD ["a"]
  let params : Params :=
    [("Action", PyVal.str "CreateLoadBalancer"),
     ("LoadBalancerName", PyVal.str name),
     ("Listeners.member.1.InstancePort", PyVal.str (toString port)),
     ("Listeners.member.1.InstanceProtocol", PyVal.str (pyUpper protocol)),
     ("Listeners.member.1.LoadBalancerPort", PyVal.str (toString port)),
     ("Listeners.member.1.Protocol", PyVal.str (pyUpper protocol))]
  let params := zones.enum.foldl
    (fun p iz =>
      pset p ("AvailabilityZones.member." ++ Nat.repr (iz.1 + 1)) (PyVal.str (region ++ iz.2)))
    params
  let balancer : LoadBalancer :=
    { id := PyVal.str name
      name := PyVal.str name
      state := State.pending
      ip := optV (findtext ["DNSName"] resp.object)
      port := PyVal.int port
      members := [] }
  ([⟨ROOT, params⟩], balancer)

/-- `destroy_balancer(self, balancer)`. -/
def destroy_balancer (balancer : LoadBalancer) : List Request × Bool :=
  ([⟨ROOT, [("Action", PyVal.str "DeleteLoadBalancer"),
            ("LoadBalancerName", balancer.id)]⟩], true)

/-- `get_balancer(self, balancer_id)`: `self._to_balancers(data)[0]` —
the unguarded first-element access raises `IndexError` when the parsed
list is empty. -/
def get_balancer (balancer_id : String) (resp : Response) :
    List Request × Except PyError LoadBalancer :=
  ([⟨ROOT, [("Action", PyVal.str "DescribeLoadBalancers"),
            ("LoadBalancerNames.member.1", PyVal.str balancer_id)]⟩],
   match _to_balancers resp.object with
   | [] => Except.error PyError.indexError
   | b :: _ => Except.ok b)

/-- `balancer_attach_compute_node(self, balancer, node)`: appends
`Member(node.id, None, None, balancer=self)` — the `balancer=` argument
is the driver object (`self`), recorded as `OwnerRef.driverSelf`.  The
Python method mutates `balancer._members` and returns `None`; modelled
by returning the updated balancer. -/
def balancer_attach_compute_node (balancer : LoadBalancer) (node : Node) :
    List Request × LoadBalancer :=
  ([⟨ROOT, [("Action", PyVal.str "RegisterInstancesWithLoadBalancer"),
            ("LoadBalancerName", balancer.id),
            ("Instances.member.1.InstanceId", PyVal.str node.id)]⟩],
   { balancer with
       members := balancer.members ++
         [{ id := node.id, ip := PyVal.none, port := PyVal.none
            balancer := OwnerRef.driverSelf }] })

/-- `balancer_detach_member(self, balancer, member)`: filters
`balancer._members` by `m.id != member.id` and returns `True`. -/
def balancer_detach_member (balancer : LoadBalancer) (member : Member) :
    List Request × (LoadBalancer × Bool) :=
  ([⟨ROOT, [("Action", PyVal.str "DeregisterInstancesFromLoadBalancer"),
            ("LoadBalancerName", balancer.id),
            ("Instances.member.1.InstanceId", PyVal.str member.id)]⟩],
   ({ balancer with members := balancer.members.filter (fun m => m.id != member.id) }, true))

/-- `balancer_list_members(self, balancer)`: returns `balancer._members`
with no call to `self.connection.request` (empty request list). -/
def balancer_list_members (balancer : LoadBalancer) : List Request × List Member :=
  ([], balancer.members)

/-- `_create_list_params(self, params, items, label)`.  `label` is the
`%d` format template, given as the function of the 1-based index.  The
`isinstance(items, basestring)` branch (wrapping a bare string into a
one-item list) is outside this model: `items` is already a list. -/
def _create_list_params (params : Params) (items : List String) (label : Nat → String) :
    Params :=
  items.enum.foldl (fun p x => pset p (label (x.1 + 1)) (PyVal.str x.2)) params

/-- `ex_create_balancer_policy(self, balancer, policy_name, policy_type,
policy_attributes=None)`. -/
def ex_create_balancer_policy (balancer : LoadBalancer) (policy_name policy_type : String)
    (policy_attributes : Option (List (String × String))) (status : Nat) :
    List Request × Bool :=
  let params : Params :=
    [("Action", PyVal.str "CreateLoadBalancerPolicy"),
     ("LoadBalancerName", balancer.id),
     ("PolicyName", PyVal.str policy_name),
     ("PolicyTypeName", PyVal.str policy_type)]
  let params :=
    match policy_attributes with
    | Option.none => params
    | some attrs => attrs.enum.foldl
        (fun p x =>
          pset (pset p ("PolicyAttributes.member." ++ Nat.repr (x.1 + 1) ++ ".AttributeName")
                  (PyVal.str x.2.1))
            ("PolicyAttributes.member." ++ Nat.repr (x.1 + 1) ++ ".AttributeValue")
            (PyVal.str x.2.2))
        params
  ([⟨ROOT, params⟩], status == httplib_OK)

/-- `ex_delete_balancer_policy(self, balancer, policy_name)`. -/
def ex_delete_balancer_policy (balancer : LoadBalancer) (policy_name : String)
    (status : Nat) : List Request × Bool :=
  ([⟨ROOT, [("Action", PyVal.str "DeleteLoadBalancerPolicy"),
            ("LoadBalancerName", balancer.id),
            ("PolicyName", PyVal.str policy_name)]⟩], status == httplib_OK)

/-- `ex_set_balancer_policies_listener(self, balancer, balancer_port,
policies)`: the `if policies:` guard skips `_create_list_params` for an
empty (falsy) list. -/
def ex_set_balancer_policies_listener (balancer : LoadBalancer) (balancer_port : Int)
    (policies : List String) (status : Nat) : List Request × Bool :=
  let params : Params :=
    [("Action", PyVal.str "SetLoadBalancerPoliciesOfListener"),
     ("LoadBalancerName", balancer.id),
     ("LoadBalancerPort", PyVal.str (toString balancer_port))]
  let params :=
    if policies.isEmpty then params
    else _create_list_params params policies (fun i => "PolicyNames.member." ++ Nat.repr i)
  ([⟨ROOT, params⟩], status == httplib_OK)

/-- `ex_set_balancer_policies_backend_server(self, balancer,
instance_port, policies)`. -/
def ex_set_balancer_policies_backend_server (balancer : LoadBalancer) (instance_port : Int)
    (policies : List String) (status : Nat) : List Request × Bool :=
  let params : Params :=
    [("Action", PyVal.str "SetLoadBalancerPoliciesForBackendServer"),
     ("LoadBalancerName", balancer.id),
     ("InstancePort", PyVal.str (toString instance_port))]
  let params :=
    if policies.isEmpty then params
    else _create_list_params params policies (fun i => "PolicyNames.member." ++ Nat.repr i)
  ([⟨ROOT, params⟩], status == httplib_OK)

/-- `'Listeners.member.%d' % i ++ suffix`: the key of one listener
parameter, `suffix` carrying its leading dot. -/
def lkey (i : Nat) (suffix : String) : String :=
  "Listeners.member." ++ (Nat.repr i ++ suffix)

/-- Python sequence indexing `l[i]` for a non-negative literal index:
`IndexError` when out of range. -/
def pyIndex (l : List String) (i : Nat) : Except PyError String :=
  match l.get? i with
  | some x => Except.ok x
  | Option.none => Except.error PyError.indexError

/-- The body of the `for index, listener in enumerate(listeners):` loop
of `ex_create_balancer_listeners`, for loop index `i = index + 1`:
four dict assignments, the last one (`SSLCertificateId` from
`listener[3]`) only when `listener[2].upper()` is `HTTPS` or `SSL`. -/
def addListener (p : Params) (i : Nat) (listener : List String) : Except PyError Params := do
  let protoRaw ← pyIndex listener 2
  let protocol := pyUpper protoRaw
  let p0 ← pyIndex listener 0
  let p := pset p (lkey i ".LoadBalancerPort") (PyVal.str p0)
  let p1 ← pyIndex listener 1
  let p := pset p (lkey i ".InstancePort") (PyVal.str p1)
  let p2 ← pyIndex listener 2
  let p := pset p (lkey i ".Protocol") (PyVal.str p2)
  if protocol == "HTTPS" || protocol == "SSL" then
    let p3 ← pyIndex listener 3
    return pset p (lkey i ".SSLCertificateId") (PyVal.str p3)
  else
    return p

/-- `ex_create_balancer_listeners(self, balancer, listeners=None)`.
Listener tuples are lists of strings (3 or 4 elements).  The
`if listeners:` guard coincides with folding over the empty list for
both falsy cases (`None` and `[]`). -/
def ex_create_balancer_listeners (balancer : LoadBalancer)
    (listeners : Option (List (List String))) (status : Nat) :
    Except PyError (List Request × Bool) := do
  let params : Params :=
    [("Action", PyVal.str "CreateLoadBalancerListeners"),
     ("LoadBalancerName", balancer.id)]
  let params ← (listeners.getD []).enum.foldlM
    (fun p x => addListener p (x.1 + 1) x.2) params
  return ([⟨ROOT, params⟩], status == httplib_OK)

/-- `ex_list_balancer_policies(self, balancer)`. -/
def ex_list_balancer_policies (balancer : LoadBalancer) (resp : Response) :
    List Request × List (Option String) :=
  ([⟨ROOT, [("Action", PyVal.str "DescribeLoadBalancerPolicies"),
            ("LoadBalancerName", balancer.id)]⟩],
   (findall ["DescribeLoadBalancerPoliciesResult", "PolicyDescriptions", "member"]
       resp.object).map (findtext ["PolicyName"]))

/-- `ex_list_balancer_policy_types(self)`. -/
def ex_list_balancer_policy_types (resp : Response) :
    List Request × List (Option String) :=
  ([⟨ROOT, [("Action", PyVal.str "DescribeLoadBalancerPolicyTypes")]⟩],
   (findall ["DescribeLoadBalancerPolicyTypesResult", "PolicyTypeDescriptions", "member"]
       resp.object).map (findtext ["PolicyTypeName"]))

end ElasticLBDriver

/-! ### Concrete fixtures used by witnesses and counterexamples -/

/-- A describe response whose balancer-descriptions list is empty. -/
def emptyDescribe : XmlElem :=
  XmlElem.node "DescribeLoadBalancersResponse" ""
    [XmlElem.node "DescribeLoadBalancersResult" ""
      [XmlElem.node "LoadBalancerDescriptions" "" []]]

/-- One balancer fragment (`member` node) with one registered instance. -/
def oneBalancerFragment : XmlElem :=
  XmlElem.node "member" ""
    [XmlElem.node "LoadBalancerName" "lb1" [],
     XmlElem.node "DNSName" "lb1.example.amazonaws.com" [],
     XmlElem.node "LoadBalancerPort" "80" [],
     XmlElem.node "Instances" ""
       [XmlElem.node "member" "" [XmlElem.node "InstanceId" "i-123" []]]]

/-- A describe response containing exactly `oneBalancerFragment`. -/
def oneBalancerDescribe : XmlElem :=
  XmlElem.node "DescribeLoadBalancersResponse" ""
    [XmlElem.node "DescribeLoadBalancersResult" ""
      [XmlElem.node "LoadBalancerDescriptions" "" [oneBalancerFragment]]]

/-- A concrete balancer as returned by `create_balancer`. -/
def lb0 : LoadBalancer :=
  { id := PyVal.str "lb1", name := PyVal.str "lb1", state := State.pending,
    ip := PyVal.none, port := PyVal.int 80, members := [] }

/-- A concrete compute node. -/
def node0 : Node := ⟨"i-1"⟩

/-- A concrete member with id `i-1`. -/
def mem0 : Member :=
  { id := "i-1", ip := PyVal.none, port := PyVal.none, balancer := OwnerRef.driverSelf }

/-- A balancer holding two members, ids `i-1` and `i-2`. -/
def lb1 : LoadBalancer :=
  { lb0 with members := [mem0, { mem0 with id := "i-2" }] }

/-! ### Spec-side descriptions of the listener loop -/

/-- The four listener parameter-key suffixes emitted by the
`ex_create_balancer_listeners` loop. -/
def SUFF : List String :=
  [".LoadBalancerPort", ".InstancePort", ".Protocol", ".SSLCertificateId"]

/-- Whether a listener tuple requires the TLS certificate parameter: its
protocol (3rd element), uppercased, equals HTTPS or SSL. -/
def certNeeded (t : List String) : Bool :=
  match t.get? 2 with
  | some s => pyUpper s == "HTTPS" || pyUpper s == "SSL"
  | Option.none => false

/-- A listener tuple the loop body can process without an IndexError: at
least three elements, and a fourth when the certificate is required. -/
def listenerOk (t : List String) : Prop :=
  3 ≤ t.length ∧ (certNeeded t = true → 4 ≤ t.length)

instance (t : List String) : Decidable (listenerOk t) :=
  inferInstanceAs (Decidable (3 ≤ t.length ∧ (certNeeded t = true → 4 ≤ t.length)))

/-- The parameters the loop body emits for the listener at 1-based index
`i`: the three port/protocol entries, plus the certificate entry exactly
when the tuple's uppercased protocol is HTTPS or SSL. -/
def listenerEntries (i : Nat) (t : List String) : List (String × PyVal) :=
  [(ElasticLBDriver.lkey i ".LoadBalancerPort", PyVal.str (t.getD 0 "")),
   (ElasticLBDriver.lkey i ".InstancePort", PyVal.str (t.getD 1 "")),
   (ElasticLBDriver.lkey i ".Protocol", PyVal.str (t.getD 2 ""))] ++
  (if certNeeded t then [(ElasticLBDriver.lkey i ".SSLCertificateId", PyVal.str (t.getD 3 ""))]
   else [])

/-! ### Decimal rendering of indices: `Nat.repr` is injective and digit-only -/

/-- Decode a list of decimal digit characters back into a number. -/
def unrepr (l : List Char) : Nat :=
  l.foldl (fun a c => 10 * a + (c.toNat - 48)) 0

theorem toDigitsCore_acc (fuel : Nat) : ∀ (n : Nat) (ds : List Char),
    Nat.toDigitsCore 10 fuel n ds = Nat.toDigitsCore 10 fuel n [] ++ ds := by
  induction fuel with
  | zero => intro n ds; simp [Nat.toDigitsCore]
  | succ f ih =>
    intro n ds
    simp only [Nat.toDigitsCore]
    by_cases h : n / 10 = 0
    · simp [h]
    · simp only [h, if_false]
      rw [ih (n / 10) (Nat.digitChar (n % 10) :: ds), ih (n / 10) [Nat.digitChar (n % 10)]]
      simp

theorem digitChar_toNat : ∀ n < 10, (Nat.digitChar n).toNat = 48 + n := by decide

theorem unrepr_append (l : List Char) (c : Char) :
    unrepr (l ++ [c]) = 10 * unrepr l + (c.toNat - 48) := by
  simp [unrepr, List.foldl_append]

theorem unrepr_toDigitsCore : ∀ (fuel n : Nat), n < fuel →
    unrepr (Nat.toDigitsCore 10 fuel n []) = n := by
  intro fuel
  induction fuel with
  | zero => intro n h; omega
  | succ f ih =>
    intro n h
    simp only [Nat.toDigitsCore]
    by_cases h0 : n / 10 = 0
    · have hn : n < 10 := by omega
      simp only [h0, if_true, Nat.mod_eq_of_lt hn]
      have hd := digitChar_toNat n hn
      simp [unrepr, hd]
    · simp only [h0, if_false]
      rw [toDigitsCore_acc, unrepr_append]
      have hlt : n / 10 < f := by omega
      rw [ih (n / 10) hlt]
      have hd := digitChar_toNat (n % 10) (Nat.mod_lt _ (by norm_num))
      omega

theorem Nat_repr_inj {m n : Nat} (h : Nat.repr m = Nat.repr n) : m = n := by
  have hd : Nat.toDigits 10 m = Nat.toDigits 10 n := congrArg String.data h
  have hm := unrepr_toDigitsCore (m + 1) m (Nat.lt_succ_self m)
  have hn := unrepr_toDigitsCore (n + 1) n (Nat.lt_succ_self n)
  have hm' : unrepr (Nat.toDigits 10 m) = m := hm
  have hn' : unrepr (Nat.toDigits 10 n) = n := hn
  rw [hd] at hm'
  exact hm'.symm.trans hn'

theorem digitChar_isDigit : ∀ n < 10, (Nat.digitChar n).isDigit = true := by decide

theorem toDigitsCore_digits (fuel : Nat) : ∀ (n : Nat) (ds : List Char),
    (∀ c ∈ ds, c.isDigit = true) →
    ∀ c ∈ Nat.toDigitsCore 10 fuel n ds, c.isDigit = true := by
  induction fuel with
  | zero => intro n ds h; simpa [Nat.toDigitsCore] using h
  | succ f ih =>
    intro n ds h
    simp only [Nat.toDigitsCore]
    have hmem : ∀ c ∈ Nat.digitChar (n % 10) :: ds, c.isDigit = true := by
      intro c hc
      rcases List.mem_cons.mp hc with rfl | hc
      · exact digitChar_isDigit _ (Nat.mod_lt _ (by norm_num))
      · exact h c hc
    by_cases h0 : n / 10 = 0
    · simpa [h0] using hmem
    · simp only [h0, if_false]
      exact ih (n / 10) _ hmem

theorem repr_all_digits (n : Nat) : ∀ c ∈ (Nat.repr n).data, c.isDigit = true :=
  toDigitsCore_digits (n + 1) n [] (by simp)

/-! ### String-key disequality toolkit -/

theorem str_append_left_cancel {p a b : String} (h : p ++ a = p ++ b) : a = b := by
  have hd := congrArg String.data h
  rw [String.data_append, String.data_append] at hd
  exact String.ext (List.append_cancel_left hd)

theorem append_ne_of_take_ne (p k : String)
    (h : k.data.take p.data.length ≠ p.data) (s : String) : p ++ s ≠ k := by
  intro he
  apply h
  rw [← he, String.data_append, List.take_left]

theorem digits_append_inj : ∀ (a b s t : List Char),
    (∀ c ∈ a, c.isDigit = true) → (∀ c ∈ b, c.isDigit = true) →
    s.head? = some '.' → t.head? = some '.' →
    a ++ s = b ++ t → a = b ∧ s = t := by
  intro a
  induction a with
  | nil =>
    intro b s t _ hb hs ht he
    cases b with
    | nil => exact ⟨rfl, he⟩
    | cons c bs =>
      exfalso
      have hc : c.isDigit = true := hb c (List.mem_cons_self _ _)
      have hhd : s.head? = some c := by rw [List.nil_append] at he; rw [he]; rfl
      rw [hs] at hhd
      have : c = '.' := (Option.some.injEq _ _).mp hhd.symm
      subst this
      simp [Char.isDigit] at hc
  | cons c as ih =>
    intro b s t ha hb hs ht he
    cases b with
    | nil =>
      exfalso
      have hc : c.isDigit = true := ha c (List.mem_cons_self _ _)
      have hhd : t.head? = some c := by rw [List.nil_append] at he; rw [← he]; rfl
      rw [ht] at hhd
      have : c = '.' := (Option.some.injEq _ _).mp hhd.symm
      subst this
      simp [Char.isDigit] at hc
    | cons d bs =>
      simp only [List.cons_append, List.cons.injEq] at he
      obtain ⟨rfl, he'⟩ := he
      obtain ⟨h1, h2⟩ := ih bs s t (fun x hx => ha x (List.mem_cons_of_mem _ hx))
        (fun x hx => hb x (List.mem_cons_of_mem _ hx)) hs ht he'
      exact ⟨by rw [h1], h2⟩

theorem repr_append_inj {i j : Nat} {s t : String}
    (hs : s.data.head? = some '.') (ht : t.data.head? = some '.')
    (h : Nat.repr i ++ s = Nat.repr j ++ t) : i = j ∧ s = t := by
  have hd := congrArg String.data h
  rw [String.data_append, String.data_append] at hd
  obtain ⟨h1, h2⟩ := digits_append_inj _ _ _ _ (repr_all_digits i) (repr_all_digits j) hs ht hd
  exact ⟨Nat_repr_inj (String.ext h1), String.ext h2⟩

/-! ### Parameter-map lemmas -/

theorem pset_fresh (p : Params) (k : String) (v : PyVal)
    (h : ∀ kv ∈ p, kv.1 ≠ k) : pset p k v = p ++ [(k, v)] := by
  have ha : p.any (fun kv => kv.1 == k) = false := by
    rw [List.any_eq_false]
    intro kv hkv
    simpa using h kv hkv
  simp [pset, ha]

theorem foldl_pset_append : ∀ (l : List (String × PyVal)) (base : Params),
    (∀ kv ∈ l, ∀ kv' ∈ base, kv'.1 ≠ kv.1) → (l.map Prod.fst).Nodup →
    l.foldl (fun p kv => pset p kv.1 kv.2) base = base ++ l := by
  intro l
  induction l with
  | nil => intro base _ _; simp
  | cons kv l ih =>
    intro base hfresh hnd
    simp only [List.map_cons, List.nodup_cons] at hnd
    simp only [List.foldl_cons]
    rw [pset_fresh base kv.1 kv.2 (fun kv' h' => hfresh kv (List.mem_cons_self _ _) kv' h')]
    rw [ih (base ++ [kv]) ?_ hnd.2]
    · simp
    · intro kv₂ h₂ kv' h'
      rcases List.mem_append.mp h' with h' | h'
      · exact hfresh kv₂ (List.mem_cons_of_mem _ h₂) kv' h'
      · rcases List.mem_singleton.mp h' with rfl
        intro heq
        exact hnd.1 (heq ▸ List.mem_map_of_mem Prod.fst h₂)

theorem enum_foldl_pset (base : Params) (items : List String) (key : Nat → String)
    (val : String → PyVal)
    (hfresh : ∀ i, ∀ kv ∈ base, kv.1 ≠ key (i + 1))
    (hinj : ∀ i j, key i = key j → i = j) :
    items.enum.foldl (fun p x => pset p (key (x.1 + 1)) (val x.2)) base
      = base ++ items.enum.map (fun x => (key (x.1 + 1), val x.2)) := by
  have h2 := foldl_pset_append
    (items.enum.map (fun x => (key (x.1 + 1), val x.2))) base ?_ ?_
  · have h1 := List.foldl_map (fun x : Nat × String => (key (x.1 + 1), val x.2))
      (fun p kv => pset p kv.1 kv.2) items.enum base
    exact h1.symm.trans h2
  · intro kv hkv kv' h'
    obtain ⟨x, _, rfl⟩ := List.mem_map.mp hkv
    exact hfresh x.1 kv' h'
  · rw [List.map_map]
    have he : (Prod.fst ∘ fun x : Nat × String => (key (x.1 + 1), val x.2))
        = (fun i : Nat => key (i + 1)) ∘ Prod.fst := rfl
    rw [he, ← List.map_map, List.enum_map_fst]
    refine List.Nodup.map ?_ (List.nodup_range _)
    intro i j h
    have := hinj (i + 1) (j + 1) h
    omega

/-- Whether a key occurs in a parameter list, propositionally. -/
theorem hasKey_iff (p : Params) (k : String) :
    hasKey p k = true ↔ ∃ kv ∈ p, kv.1 = k := by
  simp [hasKey]

theorem hasKey_append (p q : Params) (k : String) :
    hasKey (p ++ q) k = (hasKey p k || hasKey q k) := by
  simp [hasKey, List.any_append]

/-- Disequality of a concrete key against a prefixed key, discharged by
computing the take of the concrete key's characters. -/
theorem key_ne_pre (p k : String) (h : k.data.take p.data.length ≠ p.data) (s : String) :
    k ≠ p ++ s := fun he => append_ne_of_take_ne p k h s he.symm

/-! ### Claim theorems -/

/-- C3: two `create_balancer` calls that agree on name, port, protocol and
availability zones but differ arbitrarily in the `algorithm` and `members`
arguments (even in their types) send identical requests to the transport:
no parameter key or value is derived from `algorithm` or `members`. -/
theorem create_balancer_ignores_algorithm_members
    {A B A2 B2 : Type} (region name : String) (port : Int) (protocol : String)
    (alg1 : A) (memArg1 : B) (alg2 : A2) (memArg2 : B2)
    (zones : Option (List String)) (resp : Response) :
    (ElasticLBDriver.create_balancer region name port protocol alg1 memArg1 zones resp).1
      = (ElasticLBDriver.create_balancer region name port protocol alg2 memArg2 zones resp).1 :=
  rfl

/-- C9: each policy and listener mutation operation, when the transport
returns without raising, returns the boolean (HTTP status equals OK): a
non-OK status yields `false`, not a raised error. -/
theorem mutation_ops_return_status_eq_ok (b : LoadBalancer)
    (pn pt : String) (attrs : Option (List (String × String)))
    (port : Int) (policies : List String) (status : Nat) :
    (ElasticLBDriver.ex_create_balancer_policy b pn pt attrs status).2
        = (status == httplib_OK)
    ∧ (ElasticLBDriver.ex_delete_balancer_policy b pn status).2 = (status == httplib_OK)
    ∧ (ElasticLBDriver.ex_set_balancer_policies_listener b port policies status).2
        = (status == httplib_OK)
    ∧ (ElasticLBDriver.ex_set_balancer_policies_backend_server b port policies status).2
        = (status == httplib_OK)
    ∧ ElasticLBDriver.ex_create_balancer_listeners b Option.none status
        = Except.ok ([⟨ROOT, [("Action", PyVal.str "CreateLoadBalancerListeners"),
                              ("LoadBalancerName", b.id)]⟩], status == httplib_OK) :=
  ⟨rfl, rfl, rfl, rfl, rfl⟩

/-- C6: `balancer_list_members` issues no request and returns the cached
`_members` list as-is; after `balancer_attach_compute_node` on a balancer
whose members did not contain the node's id, exactly one listed member
has that id. -/
theorem balancer_list_members_spec (b : LoadBalancer) (node : Node) :
    (ElasticLBDriver.balancer_list_members b).1 = []
    ∧ (ElasticLBDriver.balancer_list_members b).2 = b.members
    ∧ ((∀ m ∈ b.members, m.id ≠ node.id) →
        ((ElasticLBDriver.balancer_list_members
            (ElasticLBDriver.balancer_attach_compute_node b node).2).2.filter
          (fun m => m.id == node.id)).length = 1) := by
  refine ⟨rfl, rfl, fun h => ?_⟩
  have h1 : b.members.filter (fun m => m.id == node.id) = [] := by
    rw [List.filter_eq_nil_iff]
    intro m hm
    simpa using h m hm
  simp [ElasticLBDriver.balancer_list_members, ElasticLBDriver.balancer_attach_compute_node,
        List.filter_append, h1]

/-- Witness for C6 at a balancer with no members and node id `i-1`. -/
theorem balancer_list_members_spec_witness :
    ((ElasticLBDriver.balancer_list_members
        (ElasticLBDriver.balancer_attach_compute_node lb0 node0).2).2.filter
      (fun m => m.id == node0.id)).length = 1 :=
  (balancer_list_members_spec lb0 node0).2.2 (by decide)

/-- C7: `balancer_detach_member` removes exactly the members whose id
equals the argument's id, keeps the others in order (a filter of the
cached list), is idempotent when the id is absent, and returns true. -/
theorem balancer_detach_member_spec (b : LoadBalancer) (member : Member) :
    ((ElasticLBDriver.balancer_detach_member b member).2.1).members
        = b.members.filter (fun m => m.id != member.id)
    ∧ (∀ m ∈ ((ElasticLBDriver.balancer_detach_member b member).2.1).members,
        m.id ≠ member.id)
    ∧ ((∀ m ∈ b.members, m.id ≠ member.id) →
        (ElasticLBDriver.balancer_detach_member b member).2.1 = b)
    ∧ (ElasticLBDriver.balancer_detach_member b member).2.2 = true := by
  refine ⟨rfl, ?_, ?_, rfl⟩
  · intro m hm
    have hm' : m ∈ b.members.filter (fun m => m.id != member.id) := hm
    have := (List.mem_filter.mp hm').2
    simpa using this
  · intro h
    have h1 : b.members.filter (fun m => m.id != member.id) = b.members := by
      rw [List.filter_eq_self]
      intro m hm
      simpa using h m hm
    show ({ b with members := b.members.filter (fun m => m.id != member.id) } : LoadBalancer) = b
    rw [h1]

/-- Witness for C7: detaching an absent id `i-9` leaves the balancer
unchanged. -/
theorem balancer_detach_member_spec_witness :
    (ElasticLBDriver.balancer_detach_member lb1 { mem0 with id := "i-9" }).2.1 = lb1 :=
  (balancer_detach_member_spec lb1 { mem0 with id := "i-9" }).2.2.1 (by decide)

/-- C1 counterexample: on a describe response with zero matching balancer
fragments, `get_balancer` fails with the out-of-bounds `indexError` of
the unguarded `[0]`, not with a NotFound-class error. -/
theorem get_balancer_zero_matches_counterexample :
    (ElasticLBDriver.get_balancer "lb-missing" ⟨emptyDescribe, 200⟩).2
        = Except.error PyError.indexError
    ∧ (ElasticLBDriver.get_balancer "lb-missing" ⟨emptyDescribe, 200⟩).2
        ≠ Except.error PyError.notFound := by
  refine ⟨rfl, ?_⟩
  intro h
  rw [show (ElasticLBDriver.get_balancer "lb-missing" ⟨emptyDescribe, 200⟩).2
      = Except.error PyError.indexError from rfl] at h
  exact PyError.noConfusion (Except.error.inj h)

/-- C1 (amended): whenever the provider's describe response parses to zero
balancers, `get_balancer` fails with the `IndexError` of the unguarded
first-element access. -/
theorem get_balancer_zero_matches_index_error (balancer_id : String) (resp : Response)
    (h : ElasticLBDriver._to_balancers resp.object = []) :
    (ElasticLBDriver.get_balancer balancer_id resp).2 = Except.error PyError.indexError := by
  simp [ElasticLBDriver.get_balancer, h]

/-- Witness for the amended C1 at the empty describe response. -/
theorem get_balancer_zero_matches_index_error_witness :
    (ElasticLBDriver.get_balancer "lb-2" ⟨emptyDescribe, 200⟩).2
      = Except.error PyError.indexError :=
  get_balancer_zero_matches_index_error "lb-2" ⟨emptyDescribe, 200⟩ (by decide)

/-- C4 (code bug): the Member appended by `balancer_attach_compute_node`
carries `balancer=self`, i.e. the driver object, not the owning
LoadBalancer — while the members built by `_to_balancer` do carry the
owning balancer. -/
theorem member_balancer_backref_check :
    ((ElasticLBDriver.balancer_attach_compute_node lb0 node0).2.members.map Member.balancer
        = [OwnerRef.driverSelf])
    ∧ OwnerRef.driverSelf ≠ OwnerRef.owningBalancer lb0.id
    ∧ ((ElasticLBDriver._to_balancer oneBalancerFragment).members.map Member.balancer
        = [OwnerRef.owningBalancer (PyVal.str "lb1")])
    ∧ (ElasticLBDriver._to_balancer oneBalancerFragment).id = PyVal.str "lb1" := by
  refine ⟨rfl, by decide, by decide, by decide⟩

/-- C10: every LoadBalancer produced by parsing a describe response has
state UNKNOWN (never PENDING or ACTIVE), and its port is the raw text of
the LoadBalancerPort node — a string, or None when the node is absent —
never the caller's integer. -/
theorem parsed_balancers_unknown_state_string_port :
    (∀ el, (ElasticLBDriver._to_balancer el).state = State.unknown
      ∧ (ElasticLBDriver._to_balancer el).port = optV (findtext ["LoadBalancerPort"] el))
    ∧ (∀ resp : Response, ∀ b ∈ (ElasticLBDriver.list_balancers resp).2,
        b.state = State.unknown ∧ ((∃ s, b.port = PyVal.str s) ∨ b.port = PyVal.none))
    ∧ (∀ (balancer_id : String) (resp : Response) (b : LoadBalancer),
        (ElasticLBDriver.get_balancer balancer_id resp).2 = Except.ok b →
        b.state = State.unknown ∧ ((∃ s, b.port = PyVal.str s) ∨ b.port = PyVal.none)) := by
  have hport : ∀ el, (∃ s, (ElasticLBDriver._to_balancer el).port = PyVal.str s)
      ∨ (ElasticLBDriver._to_balancer el).port = PyVal.none := by
    intro el
    cases h : findtext ["LoadBalancerPort"] el with
    | some s => exact Or.inl ⟨s, by simp [ElasticLBDriver._to_balancer, h, optV]⟩
    | none => exact Or.inr (by simp [ElasticLBDriver._to_balancer, h, optV])
  refine ⟨fun el => ⟨rfl, rfl⟩, ?_, ?_⟩
  · intro resp b hb
    have hb' : b ∈ (ElasticLBDriver._to_balancers resp.object) := hb
    simp only [ElasticLBDriver._to_balancers] at hb'
    obtain ⟨el, _, rfl⟩ := List.mem_map.mp hb'
    exact ⟨rfl, hport el⟩
  · intro balancer_id resp b h
    have h2 : (match ElasticLBDriver._to_balancers resp.object with
        | [] => Except.error PyError.indexError
        | b :: _ => Except.ok b) = Except.ok b := h
    cases heq : ElasticLBDriver._to_balancers resp.object with
    | nil => rw [heq] at h2; exact Except.noConfusion h2
    | cons b0 tl =>
      rw [heq] at h2
      have hb : b = b0 := (Except.ok.inj h2).symm
      subst hb
      have hmem : b ∈ ElasticLBDriver._to_balancers resp.object := by
        rw [heq]; exact List.mem_cons_self _ _
      simp only [ElasticLBDriver._to_balancers] at hmem
      obtain ⟨el, _, rfl⟩ := List.mem_map.mp hmem
      exact ⟨rfl, hport el⟩

/-- Witness for C10 at the one-balancer describe fixture. -/
theorem parsed_balancers_unknown_state_string_port_witness :
    (ElasticLBDriver.get_balancer "lb1" ⟨oneBalancerDescribe, 200⟩).2
        = Except.ok (ElasticLBDriver._to_balancer oneBalancerFragment)
    ∧ ((ElasticLBDriver._to_balancer oneBalancerFragment).state = State.unknown
       ∧ ((∃ s, (ElasticLBDriver._to_balancer oneBalancerFragment).port = PyVal.str s)
          ∨ (ElasticLBDriver._to_balancer oneBalancerFragment).port = PyVal.none)) :=
  ⟨rfl,
   parsed_balancers_unknown_state_string_port.2.2 "lb1" ⟨oneBalancerDescribe, 200⟩
     (ElasticLBDriver._to_balancer oneBalancerFragment) rfl⟩

/-- C5: `create_balancer` sends one listener block with port and protocol
duplicated on the external and instance-facing side, plus one
AvailabilityZones parameter per zone indexed 1..N in iteration order
(default: the single zone region ++ "a"), and returns a PENDING balancer
with id and name equal to `name`, port the caller's port, ip the response
DNSName text, and empty members. -/
theorem create_balancer_spec {A B : Type} (region name : String) (port : Int)
    (protocol : String) (algorithm : A) (memArg : B) (zones : List String)
    (resp : Response) :
    ElasticLBDriver.create_balancer region name port protocol algorithm memArg
        (some zones) resp
      = ([⟨ROOT,
           [("Action", PyVal.str "CreateLoadBalancer"),
            ("LoadBalancerName", PyVal.str name),
            ("Listeners.member.1.InstancePort", PyVal.str (toString port)),
            ("Listeners.member.1.InstanceProtocol", PyVal.str (pyUpper protocol)),
            ("Listeners.member.1.LoadBalancerPort", PyVal.str (toString port)),
            ("Listeners.member.1.Protocol", PyVal.str (pyUpper protocol))]
           ++ zones.enum.map (fun iz =>
                ("AvailabilityZones.member." ++ Nat.repr (iz.1 + 1),
                 PyVal.str (region ++ iz.2)))⟩],
         { id := PyVal.str name, name := PyVal.str name, state := State.pending,
           ip := optV (findtext ["DNSName"] resp.object), port := PyVal.int port,
           members := [] })
    ∧ ElasticLBDriver.create_balancer region name port protocol algorithm memArg
        Option.none resp
      = ElasticLBDriver.create_balancer region name port protocol algorithm memArg
          (some ["a"]) resp := by
  refine ⟨?_, rfl⟩
  have hfold := enum_foldl_pset
    [("Action", PyVal.str "CreateLoadBalancer"),
     ("LoadBalancerName", PyVal.str name),
     ("Listeners.member.1.InstancePort", PyVal.str (toString port)),
     ("Listeners.member.1.InstanceProtocol", PyVal.str (pyUpper protocol)),
     ("Listeners.member.1.LoadBalancerPort", PyVal.str (toString port)),
     ("Listeners.member.1.Protocol", PyVal.str (pyUpper protocol))]
    zones (fun i => "AvailabilityZones.member." ++ Nat.repr i)
    (fun z => PyVal.str (region ++ z)) ?_ ?_
  · simp only [ElasticLBDriver.create_balancer, Option.getD_some]
    rw [hfold]
  · intro i kv hkv
    simp only [List.mem_cons, List.not_mem_nil, or_false] at hkv
    rcases hkv with rfl | rfl | rfl | rfl | rfl | rfl
    · exact key_ne_pre _ "Action" (by decide) _
    · exact key_ne_pre _ "LoadBalancerName" (by decide) _
    · exact key_ne_pre _ "Listeners.member.1.InstancePort" (by decide) _
    · exact key_ne_pre _ "Listeners.member.1.InstanceProtocol" (by decide) _
    · exact key_ne_pre _ "Listeners.member.1.LoadBalancerPort" (by decide) _
    · exact key_ne_pre _ "Listeners.member.1.Protocol" (by decide) _
  · intro i j h
    exact Nat_repr_inj (str_append_left_cancel h)

/-- C8: the policy-association operations send zero PolicyNames
parameters when `policies` is empty (only the action, balancer name and
port), and one 1-based indexed PolicyNames parameter per name
otherwise. -/
theorem ex_set_policies_params_spec (b : LoadBalancer) (port : Int) (status : Nat)
    (policies : List String) :
    (ElasticLBDriver.ex_set_balancer_policies_listener b port [] status).1
      = [⟨ROOT, [("Action", PyVal.str "SetLoadBalancerPoliciesOfListener"),
                 ("LoadBalancerName", b.id),
                 ("LoadBalancerPort", PyVal.str (toString port))]⟩]
    ∧ (ElasticLBDriver.ex_set_balancer_policies_backend_server b port [] status).1
      = [⟨ROOT, [("Action", PyVal.str "SetLoadBalancerPoliciesForBackendServer"),
                 ("LoadBalancerName", b.id),
                 ("InstancePort", PyVal.str (toString port))]⟩]
    ∧ (ElasticLBDriver.ex_set_balancer_policies_listener b port policies status).1
      = [⟨ROOT, [("Action", PyVal.str "SetLoadBalancerPoliciesOfListener"),
                 ("LoadBalancerName", b.id),
                 ("LoadBalancerPort", PyVal.str (toString port))]
           ++ policies.enum.map (fun x =>
                ("PolicyNames.member." ++ Nat.repr (x.1 + 1), PyVal.str x.2))⟩]
    ∧ (ElasticLBDriver.ex_set_balancer_policies_backend_server b port policies status).1
      = [⟨ROOT, [("Action", PyVal.str "SetLoadBalancerPoliciesForBackendServer"),
                 ("LoadBalancerName", b.id),
                 ("InstancePort", PyVal.str (toString port))]
           ++ policies.enum.map (fun x =>
                ("PolicyNames.member." ++ Nat.repr (x.1 + 1), PyVal.str x.2))⟩] := by
  have hinj : ∀ i j : Nat,
      "PolicyNames.member." ++ Nat.repr i = "PolicyNames.member." ++ Nat.repr j → i = j :=
    fun i j h => Nat_repr_inj (str_append_left_cancel h)
  refine ⟨rfl, rfl, ?_, ?_⟩
  · cases policies with
    | nil => simp [ElasticLBDriver.ex_set_balancer_policies_listener]
    | cons p ps =>
      have hfold := enum_foldl_pset
        [("Action", PyVal.str "SetLoadBalancerPoliciesOfListener"),
         ("LoadBalancerName", b.id),
         ("LoadBalancerPort", PyVal.str (toString port))]
        (p :: ps) (fun i => "PolicyNames.member." ++ Nat.repr i) PyVal.str ?_ hinj
      · simp only [ElasticLBDriver.ex_set_balancer_policies_listener,
          ElasticLBDriver._create_list_params, List.isEmpty_cons, Bool.false_eq_true,
          if_false]
        rw [hfold]
      · intro i kv hkv
        simp only [List.mem_cons, List.not_mem_nil, or_false] at hkv
        rcases hkv with rfl | rfl | rfl
        · exact key_ne_pre _ "Action" (by decide) _
        · exact key_ne_pre _ "LoadBalancerName" (by decide) _
        · exact key_ne_pre _ "LoadBalancerPort" (by decide) _
  · cases policies with
    | nil => simp [ElasticLBDriver.ex_set_balancer_policies_backend_server]
    | cons p ps =>
      have hfold := enum_foldl_pset
        [("Action", PyVal.str "SetLoadBalancerPoliciesForBackendServer"),
         ("LoadBalancerName", b.id),
         ("InstancePort", PyVal.str (toString port))]
        (p :: ps) (fun i => "PolicyNames.member." ++ Nat.repr i) PyVal.str ?_ hinj
      · simp only [ElasticLBDriver.ex_set_balancer_policies_backend_server,
          ElasticLBDriver._create_list_params, List.isEmpty_cons, Bool.false_eq_true,
          if_false]
        rw [hfold]
      · intro i kv hkv
        simp only [List.mem_cons, List.not_mem_nil, or_false] at hkv
        rcases hkv with rfl | rfl | rfl
        · exact key_ne_pre _ "Action" (by decide) _
        · exact key_ne_pre _ "LoadBalancerName" (by decide) _
        · exact key_ne_pre _ "InstancePort" (by decide) _

/-! ### Listener-loop lemmas -/

theorem suff_dot : ∀ s ∈ SUFF, s.data.head? = some '.' := by decide

theorem lkey_eq_iff (i j : Nat) (s t : String)
    (hs : s.data.head? = some '.') (ht : t.data.head? = some '.') :
    ElasticLBDriver.lkey i s = ElasticLBDriver.lkey j t ↔ i = j ∧ s = t := by
  constructor
  · intro h
    exact repr_append_inj hs ht (str_append_left_cancel h)
  · rintro ⟨rfl, rfl⟩; rfl

theorem lkey_suffix_ne (i : Nat) (s t : String) (hs : s.data.head? = some '.')
    (ht : t.data.head? = some '.') (hne : s ≠ t) :
    ElasticLBDriver.lkey i s ≠ ElasticLBDriver.lkey i t :=
  fun h => hne ((lkey_eq_iff i i s t hs ht).mp h).2

theorem lkey_index_ne (i j : Nat) (s t : String) (hs : s.data.head? = some '.')
    (ht : t.data.head? = some '.') (hne : i ≠ j) :
    ElasticLBDriver.lkey i s ≠ ElasticLBDriver.lkey j t :=
  fun h => hne ((lkey_eq_iff i j s t hs ht).mp h).1

theorem listenerEntries_key {kv : String × PyVal} {i : Nat} {t : List String}
    (h : kv ∈ listenerEntries i t) : ∃ s ∈ SUFF, kv.1 = ElasticLBDriver.lkey i s := by
  cases hc : certNeeded t with
  | true =>
    simp only [listenerEntries, hc, if_true, List.mem_append, List.mem_cons,
      List.not_mem_nil, or_false] at h
    rcases h with (rfl | rfl | rfl) | rfl
    · exact ⟨".LoadBalancerPort", by decide, rfl⟩
    · exact ⟨".InstancePort", by decide, rfl⟩
    · exact ⟨".Protocol", by decide, rfl⟩
    · exact ⟨".SSLCertificateId", by decide, rfl⟩
  | false =>
    simp only [listenerEntries, hc, Bool.false_eq_true, if_false, List.append_nil,
      List.mem_cons, List.not_mem_nil, or_false] at h
    rcases h with rfl | rfl | rfl
    · exact ⟨".LoadBalancerPort", by decide, rfl⟩
    · exact ⟨".InstancePort", by decide, rfl⟩
    · exact ⟨".Protocol", by decide, rfl⟩

theorem addListener_ok (p : Params) (i : Nat) (t : List String)
    (hok : listenerOk t)
    (hp : ∀ kv ∈ p, ∀ s ∈ SUFF, kv.1 ≠ ElasticLBDriver.lkey i s) :
    ElasticLBDriver.addListener p i t = Except.ok (p ++ listenerEntries i t) := by
  obtain ⟨h3, h4⟩ := hok
  rcases t with _ | ⟨a, t⟩
  · simp at h3
  rcases t with _ | ⟨b, t⟩
  · simp at h3
  rcases t with _ | ⟨c, t⟩
  · simp at h3
  cases hcert : (pyUpper c == "HTTPS" || pyUpper c == "SSL") with
  | false =>
    have hred : ElasticLBDriver.addListener p i (a :: b :: c :: t)
        = (if (pyUpper c == "HTTPS" || pyUpper c == "SSL") = true then
             (ElasticLBDriver.pyIndex (a :: b :: c :: t) 3).bind (fun p3 =>
               Except.ok (pset (pset (pset (pset p
                 (ElasticLBDriver.lkey i ".LoadBalancerPort") (PyVal.str a))
                 (ElasticLBDriver.lkey i ".InstancePort") (PyVal.str b))
                 (ElasticLBDriver.lkey i ".Protocol") (PyVal.str c))
                 (ElasticLBDriver.lkey i ".SSLCertificateId") (PyVal.str p3)))
           else Except.ok (pset (pset (pset p
                 (ElasticLBDriver.lkey i ".LoadBalancerPort") (PyVal.str a))
                 (ElasticLBDriver.lkey i ".InstancePort") (PyVal.str b))
                 (ElasticLBDriver.lkey i ".Protocol") (PyVal.str c))) := rfl
    rw [hred, if_neg (by simp [hcert])]
    have hchain := foldl_pset_append
      [(ElasticLBDriver.lkey i ".LoadBalancerPort", PyVal.str a),
       (ElasticLBDriver.lkey i ".InstancePort", PyVal.str b),
       (ElasticLBDriver.lkey i ".Protocol", PyVal.str c)] p ?_ ?_
    · have hchain' : pset (pset (pset p
          (ElasticLBDriver.lkey i ".LoadBalancerPort") (PyVal.str a))
          (ElasticLBDriver.lkey i ".InstancePort") (PyVal.str b))
          (ElasticLBDriver.lkey i ".Protocol") (PyVal.str c)
        = p ++ [(ElasticLBDriver.lkey i ".LoadBalancerPort", PyVal.str a),
                (ElasticLBDriver.lkey i ".InstancePort", PyVal.str b),
                (ElasticLBDriver.lkey i ".Protocol", PyVal.str c)] := hchain
      rw [hchain']
      have hcn : certNeeded (a :: b :: c :: t) = false := hcert
      simp [listenerEntries, hcn]
    · intro kv hkv kv' h'
      simp only [List.mem_cons, List.not_mem_nil, or_false] at hkv
      rcases hkv with rfl | rfl | rfl
      · exact hp kv' h' _ (by decide)
      · exact hp kv' h' _ (by decide)
      · exact hp kv' h' _ (by decide)
    · simp only [List.map_cons, List.map_nil]
      refine List.nodup_cons.mpr ⟨?_, List.nodup_cons.mpr ⟨?_, List.nodup_singleton _⟩⟩
      · intro hmem
        simp only [List.mem_cons, List.not_mem_nil, or_false] at hmem
        rcases hmem with h | h
        · exact lkey_suffix_ne i ".LoadBalancerPort" ".InstancePort"
            (by decide) (by decide) (by decide) h
        · exact lkey_suffix_ne i ".LoadBalancerPort" ".Protocol"
            (by decide) (by decide) (by decide) h
      · intro hmem
        simp only [List.mem_cons, List.not_mem_nil, or_false] at hmem
        exact lkey_suffix_ne i ".InstancePort" ".Protocol"
          (by decide) (by decide) (by decide) hmem
  | true =>
    have hcn : certNeeded (a :: b :: c :: t) = true := hcert
    have h4' : 4 ≤ (a :: b :: c :: t).length := h4 hcn
    rcases t with _ | ⟨d, t⟩
    · simp at h4'
    have hred : ElasticLBDriver.addListener p i (a :: b :: c :: d :: t)
        = (if (pyUpper c == "HTTPS" || pyUpper c == "SSL") = true then
             Except.ok (pset (pset (pset (pset p
               (ElasticLBDriver.lkey i ".LoadBalancerPort") (PyVal.str a))
               (ElasticLBDriver.lkey i ".InstancePort") (PyVal.str b))
               (ElasticLBDriver.lkey i ".Protocol") (PyVal.str c))
               (ElasticLBDriver.lkey i ".SSLCertificateId") (PyVal.str d))
           else Except.ok (pset (pset (pset p
                 (ElasticLBDriver.lkey i ".LoadBalancerPort") (PyVal.str a))
                 (ElasticLBDriver.lkey i ".InstancePort") (PyVal.str b))
                 (ElasticLBDriver.lkey i ".Protocol") (PyVal.str c))) := rfl
    rw [hred, if_pos hcert]
    have hchain := foldl_pset_append
      [(ElasticLBDriver.lkey i ".LoadBalancerPort", PyVal.str a),
       (ElasticLBDriver.lkey i ".InstancePort", PyVal.str b),
       (ElasticLBDriver.lkey i ".Protocol", PyVal.str c),
       (ElasticLBDriver.lkey i ".SSLCertificateId", PyVal.str d)] p ?_ ?_
    · have hchain' : pset (pset (pset (pset p
          (ElasticLBDriver.lkey i ".LoadBalancerPort") (PyVal.str a))
          (ElasticLBDriver.lkey i ".InstancePort") (PyVal.str b))
          (ElasticLBDriver.lkey i ".Protocol") (PyVal.str c))
          (ElasticLBDriver.lkey i ".SSLCertificateId") (PyVal.str d)
        = p ++ [(ElasticLBDriver.lkey i ".LoadBalancerPort", PyVal.str a),
                (ElasticLBDriver.lkey i ".InstancePort", PyVal.str b),
                (ElasticLBDriver.lkey i ".Protocol", PyVal.str c),
                (ElasticLBDriver.lkey i ".SSLCertificateId", PyVal.str d)] := hchain
      rw [hchain']
      have hcn' : certNeeded (a :: b :: c :: d :: t) = true := hcert
      simp [listenerEntries, hcn']
    · intro kv hkv kv' h'
      simp only [List.mem_cons, List.not_mem_nil, or_false] at hkv
      rcases hkv with rfl | rfl | rfl | rfl
      · exact hp kv' h' _ (by decide)
      · exact hp kv' h' _ (by decide)
      · exact hp kv' h' _ (by decide)
      · exact hp kv' h' _ (by decide)
    · simp only [List.map_cons, List.map_nil]
      refine List.nodup_cons.mpr ⟨?_, List.nodup_cons.mpr ⟨?_,
        List.nodup_cons.mpr ⟨?_, List.nodup_singleton _⟩⟩⟩
      · intro hmem
        simp only [List.mem_cons, List.not_mem_nil, or_false] at hmem
        rcases hmem with h | h | h
        · exact lkey_suffix_ne i ".LoadBalancerPort" ".InstancePort"
            (by decide) (by decide) (by decide) h
        · exact lkey_suffix_ne i ".LoadBalancerPort" ".Protocol"
            (by decide) (by decide) (by decide) h
        · exact lkey_suffix_ne i ".LoadBalancerPort" ".SSLCertificateId"
            (by decide) (by decide) (by decide) h
      · intro hmem
        simp only [List.mem_cons, List.not_mem_nil, or_false] at hmem
        rcases hmem with h | h
        · exact lkey_suffix_ne i ".InstancePort" ".Protocol"
            (by decide) (by decide) (by decide) h
        · exact lkey_suffix_ne i ".InstancePort" ".SSLCertificateId"
            (by decide) (by decide) (by decide) h
      · intro hmem
        simp only [List.mem_cons, List.not_mem_nil, or_false] at hmem
        exact lkey_suffix_ne i ".Protocol" ".SSLCertificateId"
          (by decide) (by decide) (by decide) hmem

theorem fold_addListener_ok : ∀ (ls : List (List String)) (n : Nat) (p : Params),
    (∀ t ∈ ls, listenerOk t) →
    (∀ kv ∈ p, ∀ m, n < m → ∀ s ∈ SUFF, kv.1 ≠ ElasticLBDriver.lkey m s) →
    List.foldlM (fun q (x : Nat × List String) => ElasticLBDriver.addListener q (x.1 + 1) x.2)
        p (List.enumFrom n ls)
      = Except.ok (p ++ (List.enumFrom n ls).flatMap (fun x => listenerEntries (x.1 + 1) x.2)) := by
  intro ls
  induction ls with
  | nil => intro n p _ _; simp; rfl
  | cons t ls ih =>
    intro n p hok hp
    have hstep := addListener_ok p (n + 1) t (hok t (List.mem_cons_self _ _))
      (fun kv hkv s hs => hp kv hkv (n + 1) (Nat.lt_succ_self n) s hs)
    rw [show List.enumFrom n (t :: ls) = (n, t) :: List.enumFrom (n + 1) ls from rfl]
    rw [List.foldlM_cons]
    rw [show ElasticLBDriver.addListener p ((n, t).1 + 1) (n, t).2
        = ElasticLBDriver.addListener p (n + 1) t from rfl]
    rw [hstep]
    have hbind : (Except.ok (p ++ listenerEntries (n + 1) t) >>= fun init =>
        List.foldlM (fun q (x : Nat × List String) =>
          ElasticLBDriver.addListener q (x.1 + 1) x.2) init (List.enumFrom (n + 1) ls))
      = List.foldlM (fun q (x : Nat × List String) =>
          ElasticLBDriver.addListener q (x.1 + 1) x.2)
          (p ++ listenerEntries (n + 1) t) (List.enumFrom (n + 1) ls) := rfl
    rw [hbind]
    rw [ih (n + 1) (p ++ listenerEntries (n + 1) t)
      (fun u hu => hok u (List.mem_cons_of_mem _ hu)) ?_]
    · rw [List.flatMap_cons]
      simp [List.append_assoc]
    · intro kv hkv m hm s hs
      rcases List.mem_append.mp hkv with h' | h'
      · exact hp kv h' m (by omega) s hs
      · obtain ⟨s0, hs0, hkey⟩ := listenerEntries_key h'
        rw [hkey]
        exact lkey_index_ne (n + 1) m s0 s (suff_dot s0 hs0) (suff_dot s hs) (by omega)

/-- Characterization of `ex_create_balancer_listeners` on processable
listener lists: the sent parameter map is the action/name block followed
by the per-listener entries in order. -/
theorem ex_create_balancer_listeners_ok (b : LoadBalancer) (status : Nat)
    (ls : List (List String)) (h : ∀ t ∈ ls, listenerOk t) :
    ElasticLBDriver.ex_create_balancer_listeners b (some ls) status
      = Except.ok ([⟨ROOT,
          [("Action", PyVal.str "CreateLoadBalancerListeners"), ("LoadBalancerName", b.id)]
          ++ ls.enum.flatMap (fun x => listenerEntries (x.1 + 1) x.2)⟩],
        status == httplib_OK) := by
  have hfold := fold_addListener_ok ls 0
    [("Action", PyVal.str "CreateLoadBalancerListeners"), ("LoadBalancerName", b.id)] h ?_
  · have hunfold : ElasticLBDriver.ex_create_balancer_listeners b (some ls) status
        = (List.foldlM
            (fun q (x : Nat × List String) => ElasticLBDriver.addListener q (x.1 + 1) x.2)
            [("Action", PyVal.str "CreateLoadBalancerListeners"), ("LoadBalancerName", b.id)]
            (List.enumFrom 0 ls) >>= fun params =>
              (pure ([Request.mk ROOT params], status == httplib_OK)
                : Except PyError (List Request × Bool))) := rfl
    rw [hunfold, hfold]
    rfl
  · intro kv hkv m _ s hs
    simp only [List.mem_cons, List.not_mem_nil, or_false] at hkv
    rcases hkv with rfl | rfl
    · exact key_ne_pre _ "Action" (by decide) _
    · exact key_ne_pre _ "LoadBalancerName" (by decide) _

theorem entries_key_ne_cert {j i : Nat} (hne : j ≠ i) {t : List String}
    {kv : String × PyVal} (hkv : kv ∈ listenerEntries j t) :
    kv.1 ≠ ElasticLBDriver.lkey i ".SSLCertificateId" := by
  obtain ⟨s0, hs0, hkey⟩ := listenerEntries_key hkv
  rw [hkey]
  exact lkey_index_ne j i s0 ".SSLCertificateId" (suff_dot s0 hs0) (by decide) hne

theorem hasKey_entries_cert_ne {j i : Nat} (hne : j ≠ i) (t : List String) :
    hasKey (listenerEntries j t) (ElasticLBDriver.lkey i ".SSLCertificateId") = false := by
  apply Bool.eq_false_iff.mpr
  rw [Ne, hasKey_iff]
  rintro ⟨kv, hkv, hk⟩
  exact entries_key_ne_cert hne hkv hk

theorem hasKey_entries_cert_eq (j : Nat) (t : List String) :
    hasKey (listenerEntries j t) (ElasticLBDriver.lkey j ".SSLCertificateId")
      = certNeeded t := by
  cases hc : certNeeded t with
  | false =>
    apply Bool.eq_false_iff.mpr
    rw [Ne, hasKey_iff]
    rintro ⟨kv, hkv, hk⟩
    simp only [listenerEntries, hc, Bool.false_eq_true, if_false, List.append_nil,
      List.mem_cons, List.not_mem_nil, or_false] at hkv
    rcases hkv with rfl | rfl | rfl
    · exact absurd (((lkey_eq_iff j j ".LoadBalancerPort" ".SSLCertificateId"
        (by decide) (by decide)).mp hk).2) (by decide)
    · exact absurd (((lkey_eq_iff j j ".InstancePort" ".SSLCertificateId"
        (by decide) (by decide)).mp hk).2) (by decide)
    · exact absurd (((lkey_eq_iff j j ".Protocol" ".SSLCertificateId"
        (by decide) (by decide)).mp hk).2) (by decide)
  | true =>
    rw [hasKey_iff]
    refine ⟨(ElasticLBDriver.lkey j ".SSLCertificateId", PyVal.str (t.getD 3 "")), ?_, rfl⟩
    simp [listenerEntries, hc]

theorem hasKey_flat_cert_le : ∀ (ls : List (List String)) (n j : Nat), j ≤ n →
    hasKey ((List.enumFrom n ls).flatMap (fun x => listenerEntries (x.1 + 1) x.2))
        (ElasticLBDriver.lkey j ".SSLCertificateId") = false := by
  intro ls
  induction ls with
  | nil => intro n j _; rfl
  | cons t ls ih =>
    intro n j h
    rw [show List.enumFrom n (t :: ls) = (n, t) :: List.enumFrom (n + 1) ls from rfl,
      List.flatMap_cons, hasKey_append]
    rw [show ((n, t).1 + 1) = n + 1 from rfl]
    rw [hasKey_entries_cert_ne (show n + 1 ≠ j by omega) t, ih (n + 1) j (by omega)]
    rfl

theorem hasKey_flat_cert : ∀ (ls : List (List String)) (n i : Nat) (hi : i < ls.length),
    hasKey ((List.enumFrom n ls).flatMap (fun x => listenerEntries (x.1 + 1) x.2))
        (ElasticLBDriver.lkey (n + i + 1) ".SSLCertificateId")
      = certNeeded (ls.get ⟨i, hi⟩) := by
  intro ls
  induction ls with
  | nil => intro n i hi; simp at hi
  | cons t ls ih =>
    intro n i hi
    rw [show List.enumFrom n (t :: ls) = (n, t) :: List.enumFrom (n + 1) ls from rfl,
      List.flatMap_cons, hasKey_append]
    rw [show ((n, t).1 + 1) = n + 1 from rfl]
    cases i with
    | zero =>
      rw [show n + 0 + 1 = n + 1 from by omega]
      rw [hasKey_entries_cert_eq (n + 1) t]
      rw [hasKey_flat_cert_le ls (n + 1) (n + 1) (le_refl _)]
      simp
    | succ i' =>
      have hi' : i' < ls.length := by
        have := hi
        simp only [List.length_cons] at this
        omega
      rw [show n + (i' + 1) + 1 = n + 1 + i' + 1 from by omega]
      rw [hasKey_entries_cert_ne (show n + 1 ≠ n + 1 + i' + 1 by omega) t]
      rw [ih (n + 1) i' hi']
      simp

theorem hasKey_listeners_base_cert (b : LoadBalancer) (i : Nat) :
    hasKey [("Action", PyVal.str "CreateLoadBalancerListeners"), ("LoadBalancerName", b.id)]
        (ElasticLBDriver.lkey i ".SSLCertificateId") = false := by
  apply Bool.eq_false_iff.mpr
  rw [Ne, hasKey_iff]
  rintro ⟨kv, hkv, hk⟩
  simp only [List.mem_cons, List.not_mem_nil, or_false] at hkv
  rcases hkv with rfl | rfl
  · exact key_ne_pre _ "Action" (by decide) _ hk
  · exact key_ne_pre _ "LoadBalancerName" (by decide) _ hk

/-- C2 counterexample: an HTTPS listener tuple with no 4th element makes
`ex_create_balancer_listeners` fail with the `IndexError` of the
unguarded `listener[3]`, not with an InvalidArgument-class error. -/
theorem listeners_https_missing_cert_counterexample :
    ElasticLBDriver.ex_create_balancer_listeners lb0 (some [["443", "8443", "https"]]) 200
        = Except.error PyError.indexError
    ∧ ElasticLBDriver.ex_create_balancer_listeners lb0 (some [["443", "8443", "https"]]) 200
        ≠ Except.error PyError.invalidArgument := by
  refine ⟨rfl, ?_⟩
  intro h
  rw [show ElasticLBDriver.ex_create_balancer_listeners lb0
      (some [["443", "8443", "https"]]) 200 = Except.error PyError.indexError from rfl] at h
  exact PyError.noConfusion (Except.error.inj h)

/-- C2 (amended): the SSLCertificateId parameter is transmitted for a
listener tuple exactly when its protocol, uppercased, equals HTTPS or
SSL; if the protocol is HTTPS/SSL and the tuple has no 4th element the
call fails with the IndexError of the unguarded `listener[3]` (not an
InvalidArgument-class error); if the protocol does not require a
certificate and the tuple has 3 elements, the call succeeds without
emitting any certificate parameter. -/
theorem ex_create_balancer_listeners_cert_spec (b : LoadBalancer) (status : Nat) :
    (∀ ls : List (List String), (∀ t ∈ ls, listenerOk t) →
      ElasticLBDriver.ex_create_balancer_listeners b (some ls) status
        = Except.ok ([⟨ROOT,
            [("Action", PyVal.str "CreateLoadBalancerListeners"), ("LoadBalancerName", b.id)]
            ++ ls.enum.flatMap (fun x => listenerEntries (x.1 + 1) x.2)⟩],
          status == httplib_OK))
    ∧ (∀ (ls : List (List String)) (i : Nat) (hi : i < ls.length),
        hasKey ([("Action", PyVal.str "CreateLoadBalancerListeners"),
                 ("LoadBalancerName", b.id)]
            ++ ls.enum.flatMap (fun x => listenerEntries (x.1 + 1) x.2))
          (ElasticLBDriver.lkey (i + 1) ".SSLCertificateId")
          = certNeeded (ls.get ⟨i, hi⟩))
    ∧ (∀ t : List String, t.length = 3 → certNeeded t = true →
        ElasticLBDriver.ex_create_balancer_listeners b (some [t]) status
          = Except.error PyError.indexError)
    ∧ (∀ t : List String, t.length = 3 → certNeeded t = false →
        ElasticLBDriver.ex_create_balancer_listeners b (some [t]) status
          = Except.ok ([⟨ROOT,
              [("Action", PyVal.str "CreateLoadBalancerListeners"),
               ("LoadBalancerName", b.id)] ++ listenerEntries 1 t⟩],
            status == httplib_OK)
        ∧ hasKey ([("Action", PyVal.str "CreateLoadBalancerListeners"),
                   ("LoadBalancerName", b.id)] ++ listenerEntries 1 t)
            (ElasticLBDriver.lkey 1 ".SSLCertificateId") = false) := by
  refine ⟨fun ls h => ex_create_balancer_listeners_ok b status ls h, ?_, ?_, ?_⟩
  · intro ls i hi
    rw [hasKey_append, hasKey_listeners_base_cert b (i + 1)]
    rw [show ls.enum = List.enumFrom 0 ls from rfl]
    rw [show (i + 1) = 0 + i + 1 from by omega]
    rw [hasKey_flat_cert ls 0 i hi]
    simp
  · intro t hlen hc
    rcases t with _ | ⟨a, t⟩
    · simp at hlen
    rcases t with _ | ⟨b2, t⟩
    · simp at hlen
    rcases t with _ | ⟨c, t⟩
    · simp at hlen
    have ht : t = [] := by
      simp only [List.length_cons] at hlen
      exact List.length_eq_zero.mp (by omega)
    subst ht
    have hcond : (pyUpper c == "HTTPS" || pyUpper c == "SSL") = true := hc
    have haddl : ElasticLBDriver.addListener
        [("Action", PyVal.str "CreateLoadBalancerListeners"), ("LoadBalancerName", b.id)] 1
        (a :: b2 :: c :: []) = Except.error PyError.indexError := by
      have hstep : ElasticLBDriver.addListener
          [("Action", PyVal.str "CreateLoadBalancerListeners"), ("LoadBalancerName", b.id)] 1
          (a :: b2 :: c :: [])
          = (if (pyUpper c == "HTTPS" || pyUpper c == "SSL") = true then
              Except.error PyError.indexError
            else Except.ok (pset (pset (pset
                [("Action", PyVal.str "CreateLoadBalancerListeners"),
                 ("LoadBalancerName", b.id)]
                (ElasticLBDriver.lkey 1 ".LoadBalancerPort") (PyVal.str a))
                (ElasticLBDriver.lkey 1 ".InstancePort") (PyVal.str b2))
                (ElasticLBDriver.lkey 1 ".Protocol") (PyVal.str c))) := rfl
      rw [hstep, if_pos hcond]
    have hunfold : ElasticLBDriver.ex_create_balancer_listeners b
        (some [a :: b2 :: c :: []]) status
        = (List.foldlM
            (fun q (x : Nat × List String) => ElasticLBDriver.addListener q (x.1 + 1) x.2)
            [("Action", PyVal.str "CreateLoadBalancerListeners"), ("LoadBalancerName", b.id)]
            [(0, a :: b2 :: c :: [])] >>= fun params =>
              (pure ([Request.mk ROOT params], status == httplib_OK)
                : Except PyError (List Request × Bool))) := rfl
    rw [hunfold, List.foldlM_cons]
    rw [show ElasticLBDriver.addListener
        [("Action", PyVal.str "CreateLoadBalancerListeners"), ("LoadBalancerName", b.id)]
        ((0, a :: b2 :: c :: []).1 + 1) (0, a :: b2 :: c :: []).2
        = ElasticLBDriver.addListener
        [("Action", PyVal.str "CreateLoadBalancerListeners"), ("LoadBalancerName", b.id)] 1
        (a :: b2 :: c :: []) from rfl]
    rw [haddl]
    rfl
  · intro t hlen hc
    have hok1 : ∀ u ∈ [t], listenerOk u := by
      intro u hu
      rcases List.mem_singleton.mp hu with rfl
      refine ⟨by omega, fun hcc => ?_⟩
      rw [hc] at hcc
      exact absurd hcc (by decide)
    constructor
    · have h1 := ex_create_balancer_listeners_ok b status [t] hok1
      rw [h1]
      simp [show List.enum [t] = [(0, t)] from rfl, List.flatMap_cons]
    · rw [hasKey_append, hasKey_listeners_base_cert b 1]
      rw [hasKey_entries_cert_eq 1 t, hc]
      rfl

/-- Witness for the amended C2: one HTTP listener and one HTTPS listener
with a certificate succeed; an HTTPS listener without a certificate
fails with an IndexError. -/
theorem ex_create_balancer_listeners_cert_spec_witness :
    ElasticLBDriver.ex_create_balancer_listeners lb0
        (some [["80", "8080", "http"], ["443", "8443", "https", "cert-1"]]) 200
      = Except.ok ([⟨ROOT,
          [("Action", PyVal.str "CreateLoadBalancerListeners"),
           ("LoadBalancerName", lb0.id)]
          ++ ([["80", "8080", "http"], ["443", "8443", "https", "cert-1"]].enum.flatMap
               (fun x => listenerEntries (x.1 + 1) x.2))⟩],
        (200 == httplib_OK))
    ∧ ElasticLBDriver.ex_create_balancer_listeners lb0 (some [["443", "8443", "https"]]) 200
        = Except.error PyError.indexError :=
  ⟨(ex_create_balancer_listeners_cert_spec lb0 200).1 _ (by decide),
   (ex_create_balancer_listeners_cert_spec lb0 200).2.2.1 ["443", "8443", "https"]
     (by decide) (by decide)⟩

end ELB
